import Mathlib

/-!
Verification of the calculator core of `calculator/cal.py`.

The development shallowly embeds the pieces of the program that the
specification talks about:

* the restricted expression evaluator (`eval` over the arithmetic
  expression grammar that the calculator's buffer can contain:
  int/float/imaginary/hex/oct/bin literals, identifiers, calls with up
  to two arguments, parenthesised pairs, unary sign, and the operators
  plus, minus, star, slash and double-star);
* the numeric helper library (recip, cube, square, cuberoot, ten_pow,
  e_pow, nPr, nCr, toPolar, toRec, root, power);
* the `ALLOWED_NAMES` environment and the `INSERTION_MAP` table;
* the button dispatcher (`buttonClicked`) with its CLEAR, DELETE, EXE,
  ANS, HEX/BIN/DEC/OCT, imaginary-unit, random and csc/sec/cot branches,
  and `evaluateExpression`.

Machine floats are modelled by real numbers and Python complex numbers
by `Complex`; Python `int` is `Int`.  Values are tagged by their Python
runtime type, because several behaviours (for instance `toPolar`) branch
on `isinstance` checks.
-/

namespace Calc

/-- Python exceptions that the calculator can raise.  `invalidText`
stands for `SyntaxError` raisable by `eval`, the others for the
corresponding built-in exception classes. -/
inductive PyErr where
  | invalidText
  | nameErr (s : String)
  | typeErr
  | zeroDivErr
  | valueErr
  deriving DecidableEq, Repr

/-- Tokens of the Python expression grammar reachable from the
calculator's buffer. -/
inductive Token where
  | intTok (n : ℕ)
  | floatTok (q : ℚ)
  | imagTok (q : ℚ)
  | identTok (s : String)
  | plus
  | minus
  | star
  | slash
  | dstar
  | lparen
  | rparen
  | comma
  deriving DecidableEq, Repr

/-- Python runtime values produced by evaluating calculator
expressions: integers, floats (modelled as reals), complex numbers,
strings, pairs (the tuples returned by `toPolar`) and function objects
(a bare reference to an `ALLOWED_NAMES` function, represented by its
name). -/
inductive Value where
  | int (n : ℤ)
  | real (x : ℝ)
  | cplx (z : ℂ)
  | str (s : List Char)
  | tup (a b : Value)
  | funcObj (s : String)

/-- An entry of the evaluation namespace: either a plain object or a
callable taking a list of argument values. -/
inductive EnvEntry where
  | obj (v : Value)
  | fn (f : List Value → Except PyErr Value)

/-- The evaluation namespace, as a lookup function. -/
def Env : Type := String → Option EnvEntry

/-- Unary operators of the grammar. -/
inductive UnOp where
  | negU
  | posU
  deriving DecidableEq, Repr

/-- Binary operators of the grammar. -/
inductive BinOp where
  | addB
  | subB
  | mulB
  | divB
  | powB
  deriving DecidableEq, Repr

/-- Abstract syntax of the expressions the buffer can hold.  Callees
are syntactically names, and calls have at most two arguments (every
function in `ALLOWED_NAMES` takes at most two). -/
inductive Expr where
  | intLit (n : ℕ)
  | fltLit (q : ℚ)
  | imgLit (q : ℚ)
  | nam (s : String)
  | call0 (f : String)
  | call1 (f : String) (a : Expr)
  | call2 (f : String) (a b : Expr)
  | tupE (a b : Expr)
  | unE (op : UnOp) (a : Expr)
  | binE (op : BinOp) (a b : Expr)
  deriving Repr

/-- What a button press shows the user: the refreshed display text, a
modal error message, or nothing (the csc/sec/cot branch does not update
the display). -/
inductive Output where
  | display (t : List Char)
  | errMsg (t : List Char)
  | silentOut
  deriving Repr

/-! ## Tokenizer -/

/-- Identifier characters: letters, digits and the underscore. -/
def isIdentChar (c : Char) : Bool :=
  c.isAlpha || c.isDigit || c = '_'

/-- Hexadecimal digit test. -/
def isHexDigit (c : Char) : Bool :=
  c.isDigit || ('a' ≤ c && c ≤ 'f') || ('A' ≤ c && c ≤ 'F')

/-- Octal digit test. -/
def isOctDigit (c : Char) : Bool :=
  '0' ≤ c && c ≤ '7'

/-- Binary digit test. -/
def isBinDigit (c : Char) : Bool :=
  c = '0' || c = '1'

/-- Numeric value of one (hex) digit character. -/
def digitVal (c : Char) : ℕ :=
  if c.isDigit then c.toNat - '0'.toNat
  else if 'a' ≤ c && c ≤ 'f' then c.toNat - 'a'.toNat + 10
  else if 'A' ≤ c && c ≤ 'F' then c.toNat - 'A'.toNat + 10
  else 0

/-- Digits-to-number accumulator in a given base. -/
def digitsToNat (base : ℕ) (ds : List Char) : ℕ :=
  ds.foldl (fun acc c => acc * base + digitVal c) 0

/-- Parse an optional exponent suffix (as in `1e5`, `2E-3`): returns
the exponent and the remaining characters when the mandatory digits are
present, `none` when the text does not continue with an exponent. -/
def lexExp (cs : List Char) : Option (ℤ × List Char) :=
  match cs with
  | 'e' :: rest => lexExpTail rest
  | 'E' :: rest => lexExpTail rest
  | _ => none
where
  lexExpTail (cs : List Char) : Option (ℤ × List Char) :=
    match cs with
    | '+' :: c :: r =>
      if c.isDigit then
        let (ds, r2) := (c :: r).span (·.isDigit)
        some ((digitsToNat 10 ds : ℤ), r2)
      else none
    | '-' :: c :: r =>
      if c.isDigit then
        let (ds, r2) := (c :: r).span (·.isDigit)
        some (-(digitsToNat 10 ds : ℤ), r2)
      else none
    | c :: r =>
      if c.isDigit then
        let (ds, r2) := (c :: r).span (·.isDigit)
        some ((digitsToNat 10 ds : ℤ), r2)
      else none
    | [] => none

/-- Lex one numeric literal.  Mirrors Python's grammar for the
literals the buffer can contain: `0x`/`0o`/`0b` integers, decimal
integers (leading zeros only for zero itself), floats with optional
fraction and exponent, and `j`/`J` imaginary literals. -/
def lexNumber (cs : List Char) : Except PyErr (Token × List Char) :=
  match cs with
  | '0' :: 'x' :: r => lexRadix 16 isHexDigit r
  | '0' :: 'X' :: r => lexRadix 16 isHexDigit r
  | '0' :: 'o' :: r => lexRadix 8 isOctDigit r
  | '0' :: 'O' :: r => lexRadix 8 isOctDigit r
  | '0' :: 'b' :: r => lexRadix 2 isBinDigit r
  | '0' :: 'B' :: r => lexRadix 2 isBinDigit r
  | _ =>
    let (ip, r1) := cs.span (·.isDigit)
    match r1 with
    | '.' :: r2 =>
      let (fp, r3) := r2.span (·.isDigit)
      if ip.isEmpty && fp.isEmpty then .error .invalidText
      else
        let mant : ℚ := (digitsToNat 10 ip : ℚ) + (digitsToNat 10 fp : ℚ) / (10 : ℚ) ^ fp.length
        finishFloat mant r3
    | _ =>
      if ip.isEmpty then .error .invalidText
      else
        match lexExp r1 with
        | some (e, r2) => finishImag ((digitsToNat 10 ip : ℚ) * (10 : ℚ) ^ e) r2
        | none =>
          match r1 with
          | 'j' :: r2 => .ok (.imagTok (digitsToNat 10 ip : ℚ), r2)
          | 'J' :: r2 => .ok (.imagTok (digitsToNat 10 ip : ℚ), r2)
          | _ =>
            -- a decimal integer literal must not have leading zeros
            -- (Python: `007` is a SyntaxError, `00` is fine)
            if ip.head? = some '0' && ip.any (· ≠ '0') then .error .invalidText
            else .ok (.intTok (digitsToNat 10 ip), r1)
where
  lexRadix (base : ℕ) (good : Char → Bool) (r : List Char) : Except PyErr (Token × List Char) :=
    let (ds, r2) := r.span good
    if ds.isEmpty then .error .invalidText
    else .ok (.intTok (digitsToNat base ds), r2)
  finishFloat (mant : ℚ) (r : List Char) : Except PyErr (Token × List Char) :=
    match lexExp r with
    | some (e, r2) => finishImag (mant * (10 : ℚ) ^ e) r2
    | none => finishImag' mant r
  finishImag (q : ℚ) (r : List Char) : Except PyErr (Token × List Char) :=
    match r with
    | 'j' :: r2 => .ok (.imagTok q, r2)
    | 'J' :: r2 => .ok (.imagTok q, r2)
    | _ => .ok (.floatTok q, r)
  finishImag' (q : ℚ) (r : List Char) : Except PyErr (Token × List Char) :=
    match r with
    | 'j' :: r2 => .ok (.imagTok q, r2)
    | 'J' :: r2 => .ok (.imagTok q, r2)
    | _ => .ok (.floatTok q, r)

/-- Fuelled tokenizer loop. -/
def tokenizeAux : ℕ → List Char → Except PyErr (List Token)
  | 0, _ => .error .invalidText
  | _ + 1, [] => .ok []
  | n + 1, c :: r =>
    if c = ' ' then tokenizeAux n r
    else if c = '+' then consOk Token.plus (tokenizeAux n r)
    else if c = '-' then consOk Token.minus (tokenizeAux n r)
    else if c = '/' then consOk Token.slash (tokenizeAux n r)
    else if c = '(' then consOk Token.lparen (tokenizeAux n r)
    else if c = ')' then consOk Token.rparen (tokenizeAux n r)
    else if c = ',' then consOk Token.comma (tokenizeAux n r)
    else if c = '*' then
      match r with
      | '*' :: r2 => consOk Token.dstar (tokenizeAux n r2)
      | _ => consOk Token.star (tokenizeAux n r)
    else if c.isDigit then
      match lexNumber (c :: r) with
      | .error e => .error e
      | .ok (t, r2) => consOk t (tokenizeAux n r2)
    else if c = '.' then
      match r with
      | c2 :: _ =>
        if c2.isDigit then
          match lexNumber (c :: r) with
          | .error e => .error e
          | .ok (t, r2) => consOk t (tokenizeAux n r2)
        else .error .invalidText
      | [] => .error .invalidText
    else if c.isAlpha || c = '_' then
      let (nm, r2) := (c :: r).span isIdentChar
      consOk (Token.identTok (String.mk nm)) (tokenizeAux n r2)
    else .error .invalidText
where
  consOk (t : Token) (rest : Except PyErr (List Token)) : Except PyErr (List Token) :=
    match rest with
    | .error e => .error e
    | .ok ts => .ok (t :: ts)

/-- Tokenize a buffer text. -/
def tokenize (cs : List Char) : Except PyErr (List Token) :=
  tokenizeAux (cs.length + 1) cs

/-! ## Parser

Recursive-descent parser with Python's precedence for the operators in
scope: addition level, multiplication level, unary sign, right
associative power (whose right operand is again a signed factor, so
that a double-star binds tighter than unary minus on its left and
looser on its right), atoms.  Each function takes explicit fuel and
consumes it at every call; the top level hands the parser enough fuel
for any token list. -/

mutual

/-- Addition level: `parseT (('+' | '-') parseT)*`. -/
def parseE : ℕ → List Token → Except PyErr (Expr × List Token)
  | 0, _ => .error .invalidText
  | n + 1, ts =>
    match parseT n ts with
    | .error e => .error e
    | .ok (a, r) => parseEAux n a r

/-- Left-folding loop of the addition level. -/
def parseEAux : ℕ → Expr → List Token → Except PyErr (Expr × List Token)
  | 0, _, _ => .error .invalidText
  | n + 1, acc, .plus :: r => parseEOp n .addB acc r
  | n + 1, acc, .minus :: r => parseEOp n .subB acc r
  | _ + 1, acc, ts => .ok (acc, ts)

/-- One step of the addition-level fold: parse the right operand and
continue. -/
def parseEOp : ℕ → BinOp → Expr → List Token → Except PyErr (Expr × List Token)
  | 0, _, _, _ => .error .invalidText
  | n + 1, op, acc, r =>
    match parseT n r with
    | .error e => .error e
    | .ok (b, r2) => parseEAux n (.binE op acc b) r2

/-- Multiplication level: `parseF (('*' | '/') parseF)*`. -/
def parseT : ℕ → List Token → Except PyErr (Expr × List Token)
  | 0, _ => .error .invalidText
  | n + 1, ts =>
    match parseF n ts with
    | .error e => .error e
    | .ok (a, r) => parseTAux n a r

/-- Left-folding loop of the multiplication level. -/
def parseTAux : ℕ → Expr → List Token → Except PyErr (Expr × List Token)
  | 0, _, _ => .error .invalidText
  | n + 1, acc, .star :: r => parseTOp n .mulB acc r
  | n + 1, acc, .slash :: r => parseTOp n .divB acc r
  | _ + 1, acc, ts => .ok (acc, ts)

/-- One step of the multiplication-level fold. -/
def parseTOp : ℕ → BinOp → Expr → List Token → Except PyErr (Expr × List Token)
  | 0, _, _, _ => .error .invalidText
  | n + 1, op, acc, r =>
    match parseF n r with
    | .error e => .error e
    | .ok (b, r2) => parseTAux n (.binE op acc b) r2

/-- Signed factor: `('+' | '-') parseF | parseP`. -/
def parseF : ℕ → List Token → Except PyErr (Expr × List Token)
  | 0, _ => .error .invalidText
  | n + 1, .minus :: r => parseFSign n .negU r
  | n + 1, .plus :: r => parseFSign n .posU r
  | n + 1, ts => parseP n ts

/-- A signed factor after its sign. -/
def parseFSign : ℕ → UnOp → List Token → Except PyErr (Expr × List Token)
  | 0, _, _ => .error .invalidText
  | n + 1, op, r =>
    match parseF n r with
    | .error e => .error e
    | .ok (a, r2) => .ok (.unE op a, r2)

/-- Power level: `parseAtom ('**' parseF)?`, right associative. -/
def parseP : ℕ → List Token → Except PyErr (Expr × List Token)
  | 0, _ => .error .invalidText
  | n + 1, ts =>
    match parseAtom n ts with
    | .error e => .error e
    | .ok (a, r) => parsePowTail n a r

/-- Optional double-star continuation after an atom. -/
def parsePowTail : ℕ → Expr → List Token → Except PyErr (Expr × List Token)
  | 0, _, _ => .error .invalidText
  | n + 1, a, .dstar :: r2 => parsePowExp n a r2
  | _ + 1, a, r => .ok (a, r)

/-- The exponent of a double-star, itself a signed factor. -/
def parsePowExp : ℕ → Expr → List Token → Except PyErr (Expr × List Token)
  | 0, _, _ => .error .invalidText
  | n + 1, a, r =>
    match parseF n r with
    | .error e => .error e
    | .ok (b, r3) => .ok (.binE .powB a b, r3)

/-- Atoms: literals, names, calls with zero to two arguments, and
parenthesised expressions or pairs. -/
def parseAtom : ℕ → List Token → Except PyErr (Expr × List Token)
  | 0, _ => .error .invalidText
  | n + 1, ts =>
    match ts with
    | .intTok k :: r => .ok (.intLit k, r)
    | .floatTok q :: r => .ok (.fltLit q, r)
    | .imagTok q :: r => .ok (.imgLit q, r)
    | .identTok s :: r => parseAfterIdent n s r
    | .lparen :: r => parseParenRest n r
    | _ => .error .invalidText

/-- After an identifier: an opening parenthesis starts a call,
anything else leaves a bare name. -/
def parseAfterIdent : ℕ → String → List Token → Except PyErr (Expr × List Token)
  | 0, _, _ => .error .invalidText
  | n + 1, s, .lparen :: r => parseCallArgs n s r
  | _ + 1, s, r => .ok (.nam s, r)

/-- Call arguments, just after the opening parenthesis: an immediate
closing parenthesis is a zero-argument call. -/
def parseCallArgs : ℕ → String → List Token → Except PyErr (Expr × List Token)
  | 0, _, _ => .error .invalidText
  | _ + 1, s, .rparen :: r2 => .ok (.call0 s, r2)
  | n + 1, s, r => parseCall1 n s r

/-- First call argument, then either the closing parenthesis or a
comma and a second argument. -/
def parseCall1 : ℕ → String → List Token → Except PyErr (Expr × List Token)
  | 0, _, _ => .error .invalidText
  | n + 1, s, r =>
    match parseE n r with
    | .error e => .error e
    | .ok (a, r2) =>
      match r2 with
      | .rparen :: r3 => .ok (.call1 s a, r3)
      | .comma :: r3 => parseCall2 n s a r3
      | _ => .error .invalidText

/-- Second call argument, then the closing parenthesis. -/
def parseCall2 : ℕ → String → Expr → List Token → Except PyErr (Expr × List Token)
  | 0, _, _, _ => .error .invalidText
  | n + 1, s, a, r =>
    match parseE n r with
    | .error e => .error e
    | .ok (b, r4) =>
      match r4 with
      | .rparen :: r5 => .ok (.call2 s a b, r5)
      | _ => .error .invalidText

/-- Parenthesised expression, just after the opening parenthesis:
either `( e )` or a pair `( e , e )`. -/
def parseParenRest : ℕ → List Token → Except PyErr (Expr × List Token)
  | 0, _ => .error .invalidText
  | n + 1, r =>
    match parseE n r with
    | .error e => .error e
    | .ok (a, r2) =>
      match r2 with
      | .rparen :: r3 => .ok (a, r3)
      | .comma :: r3 => parseParenPair n a r3
      | _ => .error .invalidText

/-- Second component of a parenthesised pair, then the closing
parenthesis. -/
def parseParenPair : ℕ → Expr → List Token → Except PyErr (Expr × List Token)
  | 0, _, _ => .error .invalidText
  | n + 1, a, r =>
    match parseE n r with
    | .error e => .error e
    | .ok (b, r4) =>
      match r4 with
      | .rparen :: r5 => .ok (.tupE a b, r5)
      | _ => .error .invalidText

end

/-- Parse a complete token list into one expression; leftover tokens
are a syntax error, exactly as in Python's `eval` compilation step. -/
def parseTokens (ts : List Token) : Except PyErr Expr :=
  match parseE (20 * ts.length + 20) ts with
  | .error e => .error e
  | .ok (e, []) => .ok e
  | .ok (_, _ :: _) => .error .invalidText

/-! ## Arithmetic on values

Python's numeric tower for the operators the calculator exposes:
`int` with `int` stays `int` (except true division, which produces a
float), mixing in a float produces a float, mixing in a complex number
produces a complex number.  Division by zero raises
`ZeroDivisionError`; a negative real base under a non-integral real
exponent produces a complex result, as Python's float power does. -/

/-- Numeric view of a value as a complex number. -/
def numC : Value → Option ℂ
  | .int n => some (n : ℂ)
  | .real x => some (x : ℂ)
  | .cplx z => some z
  | _ => none

/-- Numeric view of a value as a real number (complex values are not
real-convertible, matching Python's `float(complex)` TypeError). -/
def numR : Value → Option ℝ
  | .int n => some (n : ℝ)
  | .real x => some x
  | _ => none

/-- Python `+` on calculator values. -/
noncomputable def addValue : Value → Value → Except PyErr Value
  | .int m, .int n => .ok (.int (m + n))
  | .int m, .real y => .ok (.real (m + y))
  | .real x, .int n => .ok (.real (x + n))
  | .real x, .real y => .ok (.real (x + y))
  | .str s, .str t => .ok (.str (s ++ t))
  | a, b =>
    match numC a, numC b with
    | some z, some w => .ok (.cplx (z + w))
    | _, _ => .error .typeErr

/-- Python `-` on calculator values. -/
noncomputable def subValue : Value → Value → Except PyErr Value
  | .int m, .int n => .ok (.int (m - n))
  | .int m, .real y => .ok (.real (m - y))
  | .real x, .int n => .ok (.real (x - n))
  | .real x, .real y => .ok (.real (x - y))
  | a, b =>
    match numC a, numC b with
    | some z, some w => .ok (.cplx (z - w))
    | _, _ => .error .typeErr

/-- Python `*` on calculator values (sequence repetition is modelled as
a `TypeError`; no claim exercises it). -/
noncomputable def mulValue : Value → Value → Except PyErr Value
  | .int m, .int n => .ok (.int (m * n))
  | .int m, .real y => .ok (.real (m * y))
  | .real x, .int n => .ok (.real (x * n))
  | .real x, .real y => .ok (.real (x * y))
  | a, b =>
    match numC a, numC b with
    | some z, some w => .ok (.cplx (z * w))
    | _, _ => .error .typeErr

/-- Python `/` (true division) on calculator values. -/
noncomputable def divValue : Value → Value → Except PyErr Value
  | .int m, .int n => if n = 0 then .error .zeroDivErr else .ok (.real ((m : ℝ) / (n : ℝ)))
  | .int m, .real y => if y = 0 then .error .zeroDivErr else .ok (.real (m / y))
  | .real x, .int n => if n = 0 then .error .zeroDivErr else .ok (.real (x / n))
  | .real x, .real y => if y = 0 then .error .zeroDivErr else .ok (.real (x / y))
  | a, b =>
    match numC a, numC b with
    | some z, some w => if w = 0 then .error .zeroDivErr else .ok (.cplx (z / w))
    | _, _ => .error .typeErr

open scoped Classical in
/-- Python float power: zero base with negative exponent raises, a
positive base stays real, a negative base under an integral exponent
stays real, and a negative base under a fractional exponent gives the
principal complex power. -/
noncomputable def rpowVal (x y : ℝ) : Except PyErr Value :=
  if x = 0 then
    if y < 0 then .error .zeroDivErr else .ok (.real (x ^ y))
  else if 0 < x then .ok (.real (x ^ y))
  else if h : ∃ n : ℤ, (n : ℝ) = y then .ok (.real (x ^ h.choose))
  else .ok (.cplx ((x : ℂ) ^ (y : ℂ)))

/-- Python complex power: zero base demands a real non-negative
exponent. -/
noncomputable def cpowVal (z w : ℂ) : Except PyErr Value :=
  if z = 0 then
    if w = 0 then .ok (.cplx 1)
    else if w.im ≠ 0 ∨ w.re < 0 then .error .zeroDivErr
    else .ok (.cplx 0)
  else .ok (.cplx (z ^ w))

/-- Python `**` on calculator values: `int ** int` stays `int` for a
non-negative exponent and becomes a float otherwise. -/
noncomputable def powValue : Value → Value → Except PyErr Value
  | .int m, .int n =>
    if 0 ≤ n then .ok (.int (m ^ n.toNat))
    else if m = 0 then .error .zeroDivErr
    else .ok (.real ((m : ℝ) ^ n))
  | .int m, .real y => rpowVal m y
  | .real x, .int n => rpowVal x n
  | .real x, .real y => rpowVal x y
  | a, b =>
    match numC a, numC b with
    | some z, some w => cpowVal z w
    | _, _ => .error .typeErr

/-- Unary operators on calculator values. -/
noncomputable def unopValue : UnOp → Value → Except PyErr Value
  | .negU, .int n => .ok (.int (-n))
  | .negU, .real x => .ok (.real (-x))
  | .negU, .cplx z => .ok (.cplx (-z))
  | .negU, _ => .error .typeErr
  | .posU, .int n => .ok (.int n)
  | .posU, .real x => .ok (.real x)
  | .posU, .cplx z => .ok (.cplx z)
  | .posU, _ => .error .typeErr

/-- Binary operator dispatch. -/
noncomputable def binopValue : BinOp → Value → Value → Except PyErr Value
  | .addB, a, b => addValue a b
  | .subB, a, b => subValue a b
  | .mulB, a, b => mulValue a b
  | .divB, a, b => divValue a b
  | .powB, a, b => powValue a b

/-! ## Evaluator -/

/-- Resolve a bare name in the namespace; a function entry evaluates to
a function object. -/
def lookupName (env : Env) (s : String) : Except PyErr Value :=
  match env s with
  | none => .error (.nameErr s)
  | some (.obj v) => .ok v
  | some (.fn _) => .ok (.funcObj s)

/-- Evaluate an expression under a namespace.  A call resolves its
callee first (Python raises `NameError` before evaluating arguments),
then evaluates its arguments left to right, then applies; calling a
non-function raises `TypeError`. -/
noncomputable def evalAST (env : Env) : Expr → Except PyErr Value
  | .intLit n => .ok (.int (n : ℤ))
  | .fltLit q => .ok (.real (q : ℝ))
  | .imgLit q => .ok (.cplx ⟨0, (q : ℝ)⟩)
  | .nam s => lookupName env s
  | .call0 f =>
    match env f with
    | none => .error (.nameErr f)
    | some (.obj _) => .error .typeErr
    | some (.fn g) => g []
  | .call1 f a =>
    match env f with
    | none => .error (.nameErr f)
    | some entry =>
      match evalAST env a with
      | .error e => .error e
      | .ok av =>
        match entry with
        | .obj _ => .error .typeErr
        | .fn g => g [av]
  | .call2 f a b =>
    match env f with
    | none => .error (.nameErr f)
    | some entry =>
      match evalAST env a with
      | .error e => .error e
      | .ok av =>
        match evalAST env b with
        | .error e => .error e
        | .ok bv =>
          match entry with
          | .obj _ => .error .typeErr
          | .fn g => g [av, bv]
  | .tupE a b =>
    match evalAST env a with
    | .error e => .error e
    | .ok av =>
      match evalAST env b with
      | .error e => .error e
      | .ok bv => .ok (.tup av bv)
  | .unE op a =>
    match evalAST env a with
    | .error e => .error e
    | .ok av => unopValue op av
  | .binE op a b =>
    match evalAST env a with
    | .error e => .error e
    | .ok av =>
      match evalAST env b with
      | .error e => .error e
      | .ok bv => binopValue op av bv

/-- The whole pipeline of `eval(expression, {...}, ALLOWED_NAMES)` on
the expression grammar: tokenize, parse completely, evaluate. -/
noncomputable def pyEval (env : Env) (text : List Char) : Except PyErr Value :=
  match tokenize text with
  | .error e => .error e
  | .ok ts =>
    match parseTokens ts with
    | .error e => .error e
    | .ok e => evalAST env e

/-! ## Helper function library

The pure numeric helpers defined at the top of `cal.py`.  The generic
Python operators in their bodies are the value operations above, so
each helper accepts exactly the argument types the original does. -/

/-- Source `recip(x) = 1 / x`. -/
noncomputable def recip (x : Value) : Except PyErr Value :=
  divValue (.int 1) x

/-- Source `cube(x) = x ** 3`. -/
noncomputable def cube (x : Value) : Except PyErr Value :=
  powValue x (.int 3)

/-- Source `square(x) = x ** 2`. -/
noncomputable def square (x : Value) : Except PyErr Value :=
  powValue x (.int 2)

/-- Source `cuberoot(x) = x ** (1 / 3)`; the Python literal `1 / 3` is a
float, modelled as the real third. -/
noncomputable def cuberoot (x : Value) : Except PyErr Value :=
  powValue x (.real ((1 : ℝ) / 3))

/-- Source `ten_pow(x) = 10 ** x`. -/
noncomputable def ten_pow (x : Value) : Except PyErr Value :=
  powValue (.int 10) x

/-- Source `e_pow(x) = math.e ** x`. -/
noncomputable def e_pow (x : Value) : Except PyErr Value :=
  powValue (.real (Real.exp 1)) x

/-- Source `nPr(n, r)` via `math.perm`: rejects negative arguments with
`ValueError` and otherwise returns the falling factorial, which is `0`
when `r > n`.  (`hasattr(math, "perm")` holds on every Python able to
run the program's PyQt5 shell, so the `math.perm` branch is the live
one.) -/
def nPr (n r : ℤ) : Except PyErr ℤ :=
  if n < 0 ∨ r < 0 then .error .valueErr
  else .ok (Int.ofNat (n.toNat.descFactorial r.toNat))

/-- Source `nCr(n, r)` via `math.comb`: rejects negative arguments with
`ValueError` and otherwise returns the binomial coefficient, which is
`0` when `r > n`. -/
def nCr (n r : ℤ) : Except PyErr ℤ :=
  if n < 0 ∨ r < 0 then .error .valueErr
  else .ok (Int.ofNat (n.toNat.choose r.toNat))

/-- Source `math.radians`: degrees to radians. -/
noncomputable def radians (θ : ℝ) : ℝ :=
  θ * Real.pi / 180

/-- Source `math.degrees`: radians to degrees. -/
noncomputable def degrees (θ : ℝ) : ℝ :=
  θ * 180 / Real.pi

/-- Source `toPolar(z)`: branches on `isinstance(z, complex)`; a complex value
gives `(abs(z), degrees(atan2(z.imag, z.real)))` (the two-argument
arctangent is `Complex.arg`), anything else gives `(abs(z), 0)`.
Non-numeric values raise `TypeError` from `abs`. -/
noncomputable def toPolar (v : Value) : Except PyErr (ℝ × ℝ) :=
  match v with
  | .cplx z => .ok (Complex.abs z, degrees (Complex.arg z))
  | .int n => .ok (|(n : ℝ)|, 0)
  | .real x => .ok (|x|, 0)
  | _ => .error .typeErr

/-- Source `toRec(t)` for a pair `t = (r, theta)` in degrees:
`r * (cos(radians(theta)) + 1j * sin(radians(theta)))`. -/
noncomputable def toRec (t : ℝ × ℝ) : ℂ :=
  (t.1 : ℂ) * ((Real.cos (radians t.2) : ℂ) + Complex.I * (Real.sin (radians t.2) : ℂ))

/-- Source `root(x, n) = x ** (1 / n)`: the reciprocal is computed first, so
`n = 0` raises `ZeroDivisionError`. -/
noncomputable def root (x n : Value) : Except PyErr Value :=
  match divValue (.int 1) n with
  | .error e => .error e
  | .ok inv => powValue x inv

/-- Source `power(x, y) = x ** y`. -/
noncomputable def power (x y : Value) : Except PyErr Value :=
  powValue x y

/-! ## The ALLOWED_NAMES namespace -/

/-- Coerce one argument to a float the way the `math` module does:
ints and floats are accepted, everything else (including complex
numbers) raises `TypeError`. -/
def floatArg : Value → Except PyErr ℝ
  | .int n => .ok (n : ℝ)
  | .real x => .ok x
  | _ => .error .typeErr

/-- Wrap a one-float-argument function as a namespace callable. -/
noncomputable def mathFn1 (f : ℝ → Except PyErr ℝ) : List Value → Except PyErr Value :=
  fun args =>
    match args with
    | [v] =>
      match floatArg v with
      | .error e => .error e
      | .ok x =>
        match f x with
        | .error e => .error e
        | .ok y => .ok (.real y)
    | _ => .error .typeErr

/-- Wrap a one-value-argument function as a namespace callable. -/
def valFn1 (f : Value → Except PyErr Value) : List Value → Except PyErr Value :=
  fun args =>
    match args with
    | [v] => f v
    | _ => .error .typeErr

/-- Wrap a two-value-argument function as a namespace callable. -/
def valFn2 (f : Value → Value → Except PyErr Value) : List Value → Except PyErr Value :=
  fun args =>
    match args with
    | [v, w] => f v w
    | _ => .error .typeErr

/-- The `ALLOWED_NAMES` mapping as an association list, in the source's key order.
The `random` entry is parameterised by the value the host's generator
would produce, which keeps the embedding deterministic. -/
noncomputable def ALLOWED_NAMES (rand : ℝ) : List (String × EnvEntry) :=
  [ ("sqrt", .fn (mathFn1 fun x => if x < 0 then .error .valueErr else .ok (Real.sqrt x))),
    ("sin", .fn (mathFn1 fun x => .ok (Real.sin x))),
    ("cos", .fn (mathFn1 fun x => .ok (Real.cos x))),
    ("tan", .fn (mathFn1 fun x => .ok (Real.tan x))),
    ("arcsin", .fn (mathFn1 fun x => if x < -1 ∨ 1 < x then .error .valueErr else .ok (Real.arcsin x))),
    ("arccos", .fn (mathFn1 fun x => if x < -1 ∨ 1 < x then .error .valueErr else .ok (Real.arccos x))),
    ("arctan", .fn (mathFn1 fun x => .ok (Real.arctan x))),
    ("log", .fn (mathFn1 fun x => if x ≤ 0 then .error .valueErr else .ok (Real.log x / Real.log 10))),
    ("ln", .fn (mathFn1 fun x => if x ≤ 0 then .error .valueErr else .ok (Real.log x))),
    ("factorial", .fn (fun args =>
      match args with
      | [.int n] => if n < 0 then .error .valueErr else .ok (.int (Int.ofNat n.toNat.factorial))
      | [_] => .error .typeErr
      | _ => .error .typeErr)),
    ("cube", .fn (valFn1 cube)),
    ("square", .fn (valFn1 square)),
    ("cuberoot", .fn (valFn1 cuberoot)),
    ("ten_pow", .fn (valFn1 ten_pow)),
    ("e_pow", .fn (valFn1 e_pow)),
    ("recip", .fn (valFn1 recip)),
    ("nPr", .fn (fun args =>
      match args with
      | [.int a, .int b] =>
        match nPr a b with
        | .error e => .error e
        | .ok k => .ok (.int k)
      | [_, _] => .error .typeErr
      | _ => .error .typeErr)),
    ("nCr", .fn (fun args =>
      match args with
      | [.int a, .int b] =>
        match nCr a b with
        | .error e => .error e
        | .ok k => .ok (.int k)
      | [_, _] => .error .typeErr
      | _ => .error .typeErr)),
    ("toPolar", .fn (valFn1 fun v =>
      match toPolar v with
      | .error e => .error e
      | .ok p => .ok (.tup (.real p.1) (.real p.2)))),
    ("toRec", .fn (valFn1 fun v =>
      match v with
      | .tup a b =>
        match floatArg a with
        | .error e => .error e
        | .ok r =>
          match floatArg b with
          | .error e => .error e
          | .ok θ => .ok (.cplx (toRec (r, θ)))
      | _ => .error .typeErr)),
    ("root", .fn (valFn2 root)),
    ("power", .fn (valFn2 power)),
    ("pi", .obj (.real Real.pi)),
    ("e", .obj (.real (Real.exp 1))),
    ("random", .fn (fun args =>
      match args with
      | [] => .ok (.real rand)
      | _ => .error .typeErr)) ]

/-- The keys of `ALLOWED_NAMES`. -/
def ALLOWED_NAMES_KEYS : List String :=
  [ "sqrt", "sin", "cos", "tan", "arcsin", "arccos", "arctan", "log",
    "ln", "factorial", "cube", "square", "cuberoot", "ten_pow",
    "e_pow", "recip", "nPr", "nCr", "toPolar", "toRec", "root",
    "power", "pi", "e", "random" ]

/-- Turn an association list into a namespace. -/
def envOf (l : List (String × EnvEntry)) : Env :=
  fun n => (l.find? (fun p => p.1 == n)).map (·.2)

/-- The namespace the calculator starts with. -/
noncomputable def allowedEnv (rand : ℝ) : Env :=
  envOf (ALLOWED_NAMES rand)

/-! ## Rendering values as text -/

/-- Decimal text of an integer. -/
def intText (n : ℤ) : List Char :=
  (toString n).data

open scoped Classical in
/-- Python `str` of a float.  Exact for integral values (`7.0`); the
shortest-roundtrip decimal rendering of other machine floats is beyond
a real-number model, so non-integral values get a fixed placeholder.
No claim depends on that rendering. -/
noncomputable def floatRepr (x : ℝ) : List Char :=
  if h : ∃ n : ℤ, (n : ℝ) = x then intText h.choose ++ ".0".data
  else "<float>".data

/-- Python `str` of a complex number (approximate formatting; no claim
depends on it). -/
noncomputable def complexRepr (z : ℂ) : List Char :=
  '(' :: (floatRepr z.re ++ '+' :: floatRepr z.im ++ "j)".data)

/-- Python `str` on calculator values. -/
noncomputable def pyStr : Value → List Char
  | .int n => intText n
  | .real x => floatRepr x
  | .cplx z => complexRepr z
  | .str s => s
  | .tup a b => '(' :: (pyStr a ++ ", ".data ++ pyStr b ++ [')'])
  | .funcObj s => "<built-in function ".data ++ s.data ++ ['>']

/-- The error dialog text: `"Error: " + str(e)`, with representative
texts for each exception class. -/
def errText (e : PyErr) : List Char :=
  "Error: ".data ++
    match e with
    | .invalidText => "invalid text for eval".data
    | .nameErr s => "name '".data ++ s.data ++ "' is not defined".data
    | .typeErr => "unsupported operand type(s)".data
    | .zeroDivErr => "division by zero".data
    | .valueErr => "math domain error".data

/-! ## Base conversion -/

/-- Python `float(string)`: optional surrounding blanks and sign, then
a decimal literal with optional fraction and exponent; anything else
(including the empty string and prefixed hex text) raises
`ValueError`. -/
def parseFloatText (s : List Char) : Except PyErr ℚ :=
  let t := (((s.dropWhile (· = ' ')).reverse).dropWhile (· = ' ')).reverse
  match t with
  | '+' :: r => parseMag r
  | '-' :: r =>
    match parseMag r with
    | .error e => .error e
    | .ok q => .ok (-q)
  | r => parseMag r
where
  parseMag (r : List Char) : Except PyErr ℚ :=
    let (ip, r1) := r.span (·.isDigit)
    match r1 with
    | '.' :: r2 =>
      let (fp, r3) := r2.span (·.isDigit)
      if ip.isEmpty && fp.isEmpty then .error .valueErr
      else
        finishMag ((digitsToNat 10 ip : ℚ) + (digitsToNat 10 fp : ℚ) / (10 : ℚ) ^ fp.length) r3
    | _ =>
      if ip.isEmpty then .error .valueErr
      else finishMag (digitsToNat 10 ip : ℚ) r1
  finishMag (mant : ℚ) (r : List Char) : Except PyErr ℚ :=
    match lexExp r with
    | some (e, []) => .ok (mant * (10 : ℚ) ^ e)
    | some (_, _ :: _) => .error .valueErr
    | none =>
      match r with
      | [] => .ok mant
      | _ :: _ => .error .valueErr

/-- Python `float(...)` on calculator values: ints and floats convert,
strings are parsed, complex numbers (and everything else) raise. -/
noncomputable def pyFloat : Value → Except PyErr ℝ
  | .int n => .ok (n : ℝ)
  | .real x => .ok x
  | .str s =>
    match parseFloatText s with
    | .error e => .error e
    | .ok q => .ok (q : ℝ)
  | _ => .error .typeErr

open scoped Classical in
/-- Python `int(float)`: truncation toward zero. -/
noncomputable def pyTrunc (x : ℝ) : ℤ :=
  if 0 ≤ x then ⌊x⌋ else ⌈x⌉

/-- Python `int(float(last_ans))`, the conversion guard of the HEX/BIN/DEC/OCT
branch. -/
noncomputable def pyIntOfAns (v : Value) : Except PyErr ℤ :=
  match pyFloat v with
  | .error e => .error e
  | .ok x => .ok (pyTrunc x)

/-- Python `hex`. -/
def hexText (z : ℤ) : List Char :=
  (if z < 0 then "-0x".data else "0x".data) ++ Nat.toDigits 16 z.natAbs

/-- Python `bin`. -/
def binText (z : ℤ) : List Char :=
  (if z < 0 then "-0b".data else "0b".data) ++ Nat.toDigits 2 z.natAbs

/-- Python `oct`. -/
def octText (z : ℤ) : List Char :=
  (if z < 0 then "-0o".data else "0o".data) ++ Nat.toDigits 8 z.natAbs

/-! ## Insertion table -/

/-- The `INSERTION_MAP` table, in source order. -/
def INSERTION_MAP : List (String × List Char) :=
  [ ("sin", "sin(".data),
    ("cos", "cos(".data),
    ("tan", "tan(".data),
    ("arcsin", "arcsin(".data),
    ("arccos", "arccos(".data),
    ("arctan", "arctan(".data),
    ("log", "log(".data),
    ("ln", "ln(".data),
    ("sqrt", "sqrt(".data),
    ("factorial", "factorial(".data),
    ("cube", "cube(".data),
    ("square", "square(".data),
    ("cuberoot", "cuberoot(".data),
    ("10^x", "ten_pow(".data),
    ("e^x", "e_pow(".data),
    ("^-1", "recip(".data),
    ("nPr", "nPr(".data),
    ("nCr", "nCr(".data),
    ("Pol", "toPolar(".data),
    ("Rec", "toRec(".data),
    ("root", "root(".data),
    ("power", "power(".data) ]

/-- Stable insertion into a list kept in descending order of fragment
length: the new element goes after every element whose fragment is at
least as long. -/
def insertByLen (p : String × List Char) : List (String × List Char) → List (String × List Char)
  | [] => [p]
  | q :: qs =>
    if p.2.length ≤ q.2.length then q :: insertByLen p qs
    else p :: q :: qs

/-- Source `sorted(INSERTION_MAP.items(), key=lambda x: -len(x[1]))`: Python's
stable sort by descending fragment length. -/
def sortedInsertionMap : List (String × List Char) :=
  INSERTION_MAP.foldl (fun acc p => insertByLen p acc) []

/-! ## The calculator's state machine -/

/-- The mutable state of the `Calculator` object: the expression
buffer, the last answer, and the (lazily extended) evaluation
namespace. -/
structure CalcState where
  expression : List Char
  last_ans : Value
  env : Env

/-- The state right after `__init__`. -/
noncomputable def initState (rand : ℝ) : CalcState :=
  { expression := [], last_ans := .str [], env := allowedEnv rand }

/-- Source `evaluateExpression`: evaluate the buffer; on success show, store
and re-seed the buffer with `str(result)`; on failure show the error
and leave all state untouched. -/
noncomputable def evaluateExpression (s : CalcState) : CalcState × Output :=
  match pyEval s.env s.expression with
  | .ok v => ({ s with expression := pyStr v, last_ans := v }, .display (pyStr v))
  | .error e => (s, .errMsg (errText e))

/-- The HEX/BIN/DEC/OCT branch of `buttonClicked`. -/
noncomputable def convertBranch (btn : String) (s : CalcState) : CalcState × Output :=
  match pyIntOfAns s.last_ans with
  | .error _ => (s, .errMsg "No valid integer stored in ANS for conversion.".data)
  | .ok z =>
    let converted :=
      if btn = "HEX" then hexText z
      else if btn = "BIN" then binText z
      else if btn = "DEC" then intText z
      else octText z
    ({ s with expression := converted, last_ans := .str converted }, .display converted)

/-- Extend the namespace with an entry unless the name is already
bound (the lazy `if "csc" not in ALLOWED_NAMES` pattern). -/
def extendIfMissing (n : String) (v : EnvEntry) (env : Env) : Env :=
  match env n with
  | some _ => env
  | none => fun m => if m = n then some v else env m

/-- The lazily added `csc` entry: `lambda x: 1 / math.sin(x)`. -/
noncomputable def cscEntry : EnvEntry :=
  .fn (mathFn1 fun x => if Real.sin x = 0 then .error .zeroDivErr else .ok (1 / Real.sin x))

/-- The lazily added `sec` entry: `lambda x: 1 / math.cos(x)`. -/
noncomputable def secEntry : EnvEntry :=
  .fn (mathFn1 fun x => if Real.cos x = 0 then .error .zeroDivErr else .ok (1 / Real.cos x))

/-- The lazily added `cot` entry: `lambda x: 1 / math.tan(x)`. -/
noncomputable def cotEntry : EnvEntry :=
  .fn (mathFn1 fun x => if Real.tan x = 0 then .error .zeroDivErr else .ok (1 / Real.tan x))

/-- Append text to the buffer and refresh the display. -/
def displayAppend (t : List Char) (s : CalcState) : CalcState × Output :=
  ({ s with expression := s.expression ++ t }, .display (s.expression ++ t))

/-- The DELETE branch of `buttonClicked`: try every insertion fragment
against the buffer's end, longest first, and remove the whole first
match; with no match, drop one character. -/
def deleteBranch (s : CalcState) : CalcState × Output :=
  match sortedInsertionMap.find? (fun p => p.2.isSuffixOf s.expression) with
  | some p =>
    let e2 := s.expression.take (s.expression.length - p.2.length)
    ({ s with expression := e2 }, .display e2)
  | none =>
    let e2 := s.expression.dropLast
    ({ s with expression := e2 }, .display e2)

/-- Source `buttonClicked`, dispatching on the pressed button's label exactly
as the source's `if`/`elif` chain does.  The redundant `pi` and `e`
special cases of the source append the button label just like the
final catch-all, so they are covered by it. -/
noncomputable def buttonClicked (btn : String) (s : CalcState) : CalcState × Output :=
  if btn = "CLEAR" then ({ s with expression := [] }, .display [])
  else if btn = "DELETE" then deleteBranch s
  else if btn = "EXE" then evaluateExpression s
  else if btn = "ANS" then displayAppend (pyStr s.last_ans) s
  else if btn = "HEX" ∨ btn = "BIN" ∨ btn = "DEC" ∨ btn = "OCT" then convertBranch btn s
  else if btn = "i" then displayAppend "j".data s
  else if btn = "random" then displayAppend "random()".data s
  else if btn = "csc" ∨ btn = "sec" ∨ btn = "cot" then
    ({ s with
        expression := s.expression ++ btn.data ++ "(".data,
        env := extendIfMissing "cot" cotEntry
          (extendIfMissing "sec" secEntry
            (extendIfMissing "csc" cscEntry s.env)) },
      .silentOut)
  else
    match INSERTION_MAP.find? (fun p => p.1 == btn) with
    | some p => displayAppend p.2 s
    | none => displayAppend btn.data s

/-! ## Identifier tracking for claim C2 -/

/-- The identifiers occurring in a token list. -/
def idents : List Token → List String
  | [] => []
  | .identTok s :: ts => s :: idents ts
  | .intTok _ :: ts => idents ts
  | .floatTok _ :: ts => idents ts
  | .imagTok _ :: ts => idents ts
  | .plus :: ts => idents ts
  | .minus :: ts => idents ts
  | .star :: ts => idents ts
  | .slash :: ts => idents ts
  | .dstar :: ts => idents ts
  | .lparen :: ts => idents ts
  | .rparen :: ts => idents ts
  | .comma :: ts => idents ts

/-- The names an expression resolves during evaluation: bare names and
callees. -/
def namesOf : Expr → List String
  | .intLit _ => []
  | .fltLit _ => []
  | .imgLit _ => []
  | .nam s => [s]
  | .call0 f => [f]
  | .call1 f a => f :: namesOf a
  | .call2 f a b => f :: (namesOf a ++ namesOf b)
  | .tupE a b => namesOf a ++ namesOf b
  | .unE _ a => namesOf a
  | .binE _ a b => namesOf a ++ namesOf b

/-- The parser invariant: every identifier among the consumed tokens
reappears as a resolved name of the produced expression. -/
def consumes (ts rest : List Token) (e : Expr) : Prop :=
  ∀ n : String, n ∈ idents ts → n ∈ idents rest ∨ n ∈ namesOf e

/-! ## Facts about the DELETE branch -/

/-- Of two suffixes of the same list, the shorter is a suffix of the
longer. -/
theorem suffix_total {α : Type} {l₁ l₂ l₃ : List α} (h1 : l₁ <:+ l₃) (h2 : l₂ <:+ l₃)
    (h : l₁.length ≤ l₂.length) : l₁ <:+ l₂ := by
  rw [← List.reverse_prefix] at h1 h2 ⊢
  exact List.prefix_of_prefix_length_le h1 h2 (by simpa using h)

/-- A suffix of `u ++ t` either fits inside `t` or swallows all of
`t`. -/
theorem suffix_append_cases {f u t : List Char} (h : f <:+ u ++ t) : f <:+ t ∨ t <:+ f := by
  rcases le_or_lt f.length t.length with hle | hlt
  · exact Or.inl (suffix_total h (List.suffix_append u t) hle)
  · exact Or.inr (suffix_total (List.suffix_append u t) h hlt.le)

/-- The sorted insertion table is ordered by descending fragment
length. -/
theorem sorted_len_pairwise :
    sortedInsertionMap.Pairwise (fun a b => b.2.length ≤ a.2.length) := by
  decide

/-- The sorted insertion table is a permutation of `INSERTION_MAP`. -/
theorem sorted_perm : sortedInsertionMap.Perm INSERTION_MAP := by
  decide

/-- In a list sorted by descending fragment length, `find?` returns a
match of maximal length. -/
theorem find?_longest {l : List (String × List Char)} {e : List Char} {p : String × List Char}
    (hp : l.Pairwise (fun a b => b.2.length ≤ a.2.length))
    (hf : l.find? (fun q => q.2.isSuffixOf e) = some p) :
    ∀ q ∈ l, q.2.isSuffixOf e → q.2.length ≤ p.2.length := by
  induction l with
  | nil => simp at hf
  | cons a l ih =>
    rw [List.find?_cons] at hf
    rcases List.pairwise_cons.mp hp with ⟨ha, hl⟩
    cases hcond : a.2.isSuffixOf e with
    | true =>
      rw [hcond] at hf
      obtain rfl : a = p := by simpa using hf
      intro q hq _
      rcases List.mem_cons.mp hq with rfl | hq'
      · exact le_refl _
      · exact ha q hq'
    | false =>
      rw [hcond] at hf
      intro q hq hsuf
      rcases List.mem_cons.mp hq with rfl | hq'
      · rw [hcond] at hsuf; exact absurd hsuf (by simp)
      · exact ih hl hf q hq' hsuf

/-- When a longest matching fragment exists, the DELETE branch removes
exactly that fragment. -/
theorem deleteBranch_longest {s : CalcState} {f : String × List Char}
    (hmem : f ∈ INSERTION_MAP) (hsuf : f.2 <:+ s.expression)
    (hmax : ∀ g ∈ INSERTION_MAP, g.2 <:+ s.expression → g.2.length ≤ f.2.length) :
    deleteBranch s =
      ({ s with expression := s.expression.take (s.expression.length - f.2.length) },
        .display (s.expression.take (s.expression.length - f.2.length))) := by
  have hmem' : f ∈ sortedInsertionMap := sorted_perm.mem_iff.mpr hmem
  cases hf : sortedInsertionMap.find? (fun p => p.2.isSuffixOf s.expression) with
  | none =>
    exact absurd (List.isSuffixOf_iff_suffix.mpr hsuf)
      (by simpa using List.find?_eq_none.mp hf f hmem')
  | some p =>
    have hpb := List.find?_some hf
    have hpsuf : p.2 <:+ s.expression :=
      List.isSuffixOf_iff_suffix.mp (by simpa using hpb)
    have hple : p.2.length ≤ f.2.length :=
      hmax p (sorted_perm.mem_iff.mp (List.mem_of_find?_eq_some hf)) hpsuf
    have hfle : f.2.length ≤ p.2.length :=
      find?_longest sorted_len_pairwise hf f hmem' (List.isSuffixOf_iff_suffix.mpr hsuf)
    have hpf : p.2 = f.2 :=
      (suffix_total hpsuf hsuf hple).eq_of_length (le_antisymm hple hfle)
    rw [deleteBranch, hf]
    simp only [hpf]

/-- When no fragment matches, the DELETE branch drops one character. -/
theorem deleteBranch_nomatch {s : CalcState}
    (h : ∀ g ∈ INSERTION_MAP, ¬ g.2 <:+ s.expression) :
    deleteBranch s =
      ({ s with expression := s.expression.dropLast }, .display s.expression.dropLast) := by
  have hf : sortedInsertionMap.find? (fun p => p.2.isSuffixOf s.expression) = none := by
    refine List.find?_eq_none.mpr fun p hp => ?_
    simpa using fun hs => h p (sorted_perm.mem_iff.mp hp) (List.isSuffixOf_iff_suffix.mp hs)
  rw [deleteBranch, hf]

/-- If a text neither contains any fragment as a suffix nor is a
suffix of any fragment, no fragment can match any buffer ending in
that text. -/
theorem no_frag_suffix {t : List Char}
    (hc : ∀ g ∈ INSERTION_MAP, ¬ g.2 <:+ t ∧ ¬ t <:+ g.2) :
    ∀ u : List Char, ∀ g ∈ INSERTION_MAP, ¬ g.2 <:+ u ++ t := by
  intro u g hg hsuf
  rcases suffix_append_cases hsuf with h | h
  · exact (hc g hg).1 h
  · exact (hc g hg).2 h

/-! ## Claim C8 -/

/-- C8: for every buffer text, `deleteLast()` removes the entire
longest insertion-table fragment that is a suffix of the buffer when
one matches (two distinct fragments of equal length cannot both be
suffixes of the same buffer, so the table-order tie-break never
changes the outcome), otherwise removes exactly one trailing
character, and is a no-op on the empty buffer. -/
theorem c8_deleteLast_longest_fragment :
    (∀ s : CalcState, s.expression = [] → buttonClicked "DELETE" s = (s, .display [])) ∧
    (∀ s : CalcState, ∀ f, f ∈ INSERTION_MAP → f.2 <:+ s.expression →
      (∀ g ∈ INSERTION_MAP, g.2 <:+ s.expression → g.2.length ≤ f.2.length) →
      (buttonClicked "DELETE" s).1.expression ++ f.2 = s.expression) ∧
    (∀ s : CalcState, (∀ g ∈ INSERTION_MAP, ¬ g.2 <:+ s.expression) →
      (buttonClicked "DELETE" s).1.expression = s.expression.dropLast) := by
  refine ⟨?_, ?_, ?_⟩
  · rintro ⟨e, la, env⟩ h
    simp only at h
    subst h
    have hd : buttonClicked "DELETE" (⟨[], la, env⟩ : CalcState) = deleteBranch ⟨[], la, env⟩ := rfl
    rw [hd, deleteBranch_nomatch
      (show ∀ g ∈ INSERTION_MAP, ¬ g.2 <:+ ([] : List Char) by decide)]
    rfl
  · intro s f hmem hsuf hmax
    show (deleteBranch s).1.expression ++ f.2 = s.expression
    rw [deleteBranch_longest hmem hsuf hmax]
    obtain ⟨u, hu⟩ := hsuf
    rw [← hu]
    simp [List.take_left]
  · intro s h
    show (deleteBranch s).1.expression = s.expression.dropLast
    rw [deleteBranch_nomatch h]

/-- Witness for C8 at the buffer `"2*sin("`: the whole `"sin("`
fragment is removed. -/
theorem c8_witness :
    (buttonClicked "DELETE"
        ⟨"2*sin(".data, .str [], fun _ => none⟩).1.expression ++ "sin(".data
      = "2*sin(".data :=
  c8_deleteLast_longest_fragment.2.1 ⟨"2*sin(".data, .str [], fun _ => none⟩
    ("sin", "sin(".data) (by decide) (by decide) (by decide)

/-! ## Claim C10 -/

/-- C10: the csc/sec/cot button handler appends `"csc("` (resp.
`"sec("`, `"cot("`) to the buffer, those fragments are absent from
`INSERTION_MAP`, and consequently `deleteLast()` on a buffer ending in
one of them removes only the single trailing `'('` character. -/
theorem c10_csc_sec_cot_delete :
    (∀ s : CalcState,
      (buttonClicked "csc" s).1.expression = s.expression ++ "csc(".data ∧
      (buttonClicked "sec" s).1.expression = s.expression ++ "sec(".data ∧
      (buttonClicked "cot" s).1.expression = s.expression ++ "cot(".data) ∧
    ("csc(".data ∉ INSERTION_MAP.map (fun p => p.2) ∧
      "sec(".data ∉ INSERTION_MAP.map (fun p => p.2) ∧
      "cot(".data ∉ INSERTION_MAP.map (fun p => p.2)) ∧
    (∀ u : List Char, ∀ s : CalcState,
      (s.expression = u ++ "csc(".data →
        (buttonClicked "DELETE" s).1.expression = u ++ "csc".data) ∧
      (s.expression = u ++ "sec(".data →
        (buttonClicked "DELETE" s).1.expression = u ++ "sec".data) ∧
      (s.expression = u ++ "cot(".data →
        (buttonClicked "DELETE" s).1.expression = u ++ "cot".data)) := by
  refine ⟨?_, ⟨by decide, by decide, by decide⟩, ?_⟩
  · intro s
    refine ⟨?_, ?_, ?_⟩ <;>
      · show s.expression ++ _ ++ "(".data = s.expression ++ _
        rw [List.append_assoc]
        rfl
  · intro u s
    refine ⟨?_, ?_, ?_⟩ <;> intro h <;>
      [ rw [show buttonClicked "DELETE" s = deleteBranch s from rfl,
          deleteBranch_nomatch (fun g hg => h ▸ no_frag_suffix (by decide) u g hg)];
        rw [show buttonClicked "DELETE" s = deleteBranch s from rfl,
          deleteBranch_nomatch (fun g hg => h ▸ no_frag_suffix (by decide) u g hg)];
        rw [show buttonClicked "DELETE" s = deleteBranch s from rfl,
          deleteBranch_nomatch (fun g hg => h ▸ no_frag_suffix (by decide) u g hg)]] <;>
      simp only [h] <;>
      rw [List.dropLast_append_of_ne_nil _ (by decide)] <;>
      rfl

/-- Witness for C10 at the buffer `"2*csc("`: only the `'('` is
removed. -/
theorem c10_witness :
    (buttonClicked "csc" ⟨"2*".data, .str [], fun _ => none⟩).1.expression = "2*csc(".data ∧
    (buttonClicked "DELETE"
        ⟨"2*csc(".data, .str [], fun _ => none⟩).1.expression = "2*csc".data := by
  constructor
  · exact (c10_csc_sec_cot_delete.1 ⟨"2*".data, .str [], fun _ => none⟩).1
  · exact ((c10_csc_sec_cot_delete.2.2 "2*".data
      ⟨"2*csc(".data, .str [], fun _ => none⟩).1 rfl)

/-! ## Claim C1 -/

/-- C1 (amended): `evaluateExpression` performs no parenthesis
auto-closing — the buffer text reaches `eval` verbatim — so the
unbalanced `"(3+4"` and `"((3+4"` fail with an `EvaluationError` under
every namespace, while the balanced `"(3+4)"` evaluates to `7`. -/
theorem c1_no_auto_close :
    (∀ env : Env, pyEval env "(3+4".data = .error .invalidText) ∧
    (∀ env : Env, pyEval env "((3+4".data = .error .invalidText) ∧
    (∀ env : Env, pyEval env "(3+4)".data = .ok (.int 7)) :=
  ⟨fun _ => rfl, fun _ => rfl, fun _ => rfl⟩

/-- C1 counterexample: with the program's own namespace, evaluating
the buffer `"(3+4"` is a syntax error, not the claimed result `7`. -/
theorem c1_counterexample :
    pyEval (allowedEnv 0) "(3+4".data = .error .invalidText ∧
    pyEval (allowedEnv 0) "(3+4".data ≠ .ok (.int 7) := by
  have h1 : pyEval (allowedEnv 0) "(3+4".data = .error .invalidText := rfl
  exact ⟨h1, fun h => by rw [h1] at h; exact Except.noConfusion h⟩

/-! ## Claim C5 -/

/-- C5: when evaluation of the buffer fails, `evaluateExpression`
reports the error's message and leaves the whole calculator state — in
particular the expression buffer — exactly as it was. -/
theorem c5_failure_preserves_buffer :
    ∀ s : CalcState, ∀ e : PyErr, pyEval s.env s.expression = .error e →
      evaluateExpression s = (s, .errMsg (errText e)) := by
  intro s e h
  unfold evaluateExpression
  rw [h]

/-- Witness for C5 at the buffer `"(3+4"`. -/
theorem c5_witness :
    evaluateExpression ⟨"(3+4".data, .str [], allowedEnv 0⟩
      = (⟨"(3+4".data, .str [], allowedEnv 0⟩, .errMsg (errText .invalidText)) :=
  c5_failure_preserves_buffer ⟨"(3+4".data, .str [], allowedEnv 0⟩ .invalidText rfl

/-! ## Claim C6 -/

/-- C6: when evaluation of the buffer succeeds with value `v`,
`evaluateExpression` stores `v` as the last answer, replaces the
buffer with `str(v)`, and reports `str(v)` on the display. -/
theorem c6_success_updates_state :
    ∀ s : CalcState, ∀ v : Value, pyEval s.env s.expression = .ok v →
      evaluateExpression s =
        ({ s with expression := pyStr v, last_ans := v }, .display (pyStr v)) := by
  intro s v h
  unfold evaluateExpression
  rw [h]

/-- Witness for C6 at the buffer `"(3+4)"`, which evaluates to the
integer `7` and re-seeds the buffer with `"7"`. -/
theorem c6_witness :
    evaluateExpression ⟨"(3+4)".data, .str [], allowedEnv 0⟩
      = (⟨"7".data, .int 7, allowedEnv 0⟩, .display "7".data) :=
  c6_success_updates_state ⟨"(3+4)".data, .str [], allowedEnv 0⟩ (.int 7) rfl

/-! ## Claim C3 -/

/-- C3 (amended): `nPr` and `nCr` compute the standard falling
factorial and binomial coefficient (`nPr(5,2) = 20`,
`nCr(5,2) = 10`) and fail with a `DomainError` when either argument is
negative; when `r > n` they return `0` rather than failing. -/
theorem c3_perm_comb :
    (nPr 5 2 = .ok 20 ∧ nCr 5 2 = .ok 10) ∧
    (∀ n r : ℤ, n < 0 ∨ r < 0 → nPr n r = .error .valueErr ∧ nCr n r = .error .valueErr) ∧
    (∀ n r : ℕ, r ≤ n →
      nPr n r = .ok ((n.factorial / (n - r).factorial : ℕ) : ℤ) ∧
      nCr n r = .ok ((n.factorial / (r.factorial * (n - r).factorial) : ℕ) : ℤ)) ∧
    (∀ n r : ℤ, 0 ≤ n → 0 ≤ r → n < r → nPr n r = .ok 0 ∧ nCr n r = .ok 0) := by
  refine ⟨⟨rfl, rfl⟩, ?_, ?_, ?_⟩
  · intro n r h
    refine ⟨?_, ?_⟩
    · unfold nPr; rw [if_pos h]
    · unfold nCr; rw [if_pos h]
  · intro n r h
    have hneg : ¬((n : ℤ) < 0 ∨ (r : ℤ) < 0) := by
      push_neg
      exact ⟨Int.natCast_nonneg n, Int.natCast_nonneg r⟩
    constructor
    · unfold nPr
      rw [if_neg hneg]
      simp [Nat.descFactorial_eq_div h]
    · unfold nCr
      rw [if_neg hneg]
      simp [Nat.choose_eq_factorial_div_factorial h]
  · intro n r hn hr hlt
    have hneg : ¬(n < 0 ∨ r < 0) := by push_neg; exact ⟨hn, hr⟩
    have hlt' : n.toNat < r.toNat := by omega
    constructor
    · unfold nPr
      rw [if_neg hneg]
      simp [Nat.descFactorial_eq_zero_iff_lt.mpr hlt']
    · unfold nCr
      rw [if_neg hneg]
      simp [Nat.choose_eq_zero_of_lt hlt']

/-- Witness for C3: a negative argument fails, `(5,2)` gives the
standard values, and `r > n` gives `0`. -/
theorem c3_witness :
    nPr (-1) 2 = .error .valueErr ∧ nCr 5 2 = .ok 10 ∧ nPr 2 5 = .ok 0 :=
  ⟨(c3_perm_comb.2.1 (-1) 2 (Or.inl (by decide))).1,
    c3_perm_comb.1.2,
    (c3_perm_comb.2.2.2 2 5 (by decide) (by decide) (by decide)).1⟩

/-- C3 counterexample: at `n = 2, r = 5` (so `r > n`) both functions
return `0` instead of failing with a `DomainError`. -/
theorem c3_counterexample :
    nPr 2 5 = .ok 0 ∧ nPr 2 5 ≠ .error .valueErr ∧
    nCr 2 5 = .ok 0 ∧ nCr 2 5 ≠ .error .valueErr :=
  ⟨rfl, fun h => Except.noConfusion h, rfl, fun h => Except.noConfusion h⟩

/-! ## Facts about toPolar and toRec -/

/-- Converting a right angle to degrees gives `90`. -/
theorem degrees_pi_div_two : degrees (Real.pi / 2) = 90 := by
  unfold degrees
  field_simp
  ring

/-- Applying `toPolar` to the imaginary unit: magnitude `1`, angle `90`. -/
theorem toPolar_I : toPolar (.cplx Complex.I) = .ok (1, 90) := by
  show Except.ok (Complex.abs Complex.I, degrees Complex.I.arg) = _
  rw [Complex.abs_I, Complex.arg_I, degrees_pi_div_two]

/-- Degrees-to-radians inverts radians-to-degrees. -/
theorem radians_degrees (θ : ℝ) : radians (degrees θ) = θ := by
  unfold radians degrees
  field_simp

/-- The map `toRec` undoes `toPolar` on every complex number. -/
theorem toRec_polar (z : ℂ) : toRec (Complex.abs z, degrees (Complex.arg z)) = z := by
  unfold toRec
  simp only [radians_degrees]
  rw [Complex.ofReal_cos, Complex.ofReal_sin]
  have key := Complex.abs_mul_cos_add_sin_mul_I z
  linear_combination key

/-- Evaluating `toRec (1, 90)` gives the imaginary unit. -/
theorem toRec_one_ninety : toRec (1, 90) = Complex.I := by
  have h1 : ((1 : ℝ), (90 : ℝ)) = (Complex.abs Complex.I, degrees Complex.I.arg) := by
    rw [Complex.abs_I, Complex.arg_I, degrees_pi_div_two]
  rw [h1, toRec_polar]

/-! ## Claim C4 -/

/-- C4 (amended): `toPolar` branches on the value's runtime type, not
on whether the imaginary component is zero: a complex-typed input `z`
yields `(abs z, arg z in degrees)` — in particular `(1, 90)` for the
imaginary unit — while int- and float-typed inputs yield `(|z|, 0)`.
A complex-typed input with zero imaginary part and negative real part
therefore yields angle `180` rather than the claimed `0`. -/
theorem c4_toPolar_by_type :
    (toPolar (.cplx Complex.I) = .ok (1, 90)) ∧
    (∀ z : ℂ, z.im ≠ 0 → toPolar (.cplx z) = .ok (Complex.abs z, degrees (Complex.arg z))) ∧
    (∀ x : ℝ, toPolar (.real x) = .ok (|x|, 0)) ∧
    (∀ n : ℤ, toPolar (.int n) = .ok (|(n : ℝ)|, 0)) :=
  ⟨toPolar_I, fun _ _ => rfl, fun _ => rfl, fun _ => rfl⟩

/-- Witness for C4: the imaginary unit has a nonzero imaginary
component and gets the four-quadrant angle, a real input gets angle
`0`. -/
theorem c4_witness :
    toPolar (.cplx Complex.I) = .ok (Complex.abs Complex.I, degrees Complex.I.arg) ∧
    toPolar (.real 5) = .ok (|(5 : ℝ)|, 0) :=
  ⟨c4_toPolar_by_type.2.1 Complex.I (by simp),
    c4_toPolar_by_type.2.2.1 5⟩

/-- C4 counterexample: the complex-typed value `-1` has imaginary
component `0` but `toPolar` returns angle `180`, not the claimed
`(|z|, 0)`. -/
theorem c4_counterexample :
    toPolar (.cplx (-1)) = .ok (1, 180) ∧
    ((1 : ℝ), (180 : ℝ)) ≠ ((1 : ℝ), (0 : ℝ)) := by
  constructor
  · show Except.ok (Complex.abs (-1), degrees (Complex.arg (-1))) = _
    rw [Complex.arg_neg_one]
    have habs : Complex.abs (-1) = 1 := by simp
    have hdeg : degrees Real.pi = 180 := by
      unfold degrees
      field_simp
    rw [habs, hdeg]
  · intro h
    have := congrArg Prod.snd h
    norm_num at this

/-! ## Claim C9 -/

/-- C9: `toRec(r, theta)` interprets the angle in degrees — so
`toRec (1, 90)` is exactly the imaginary unit — and `toRec` applied to
the pair produced by `toPolar` on any complex-typed value returns that
value (the model is exact where floating point is only approximate). -/
theorem c9_toRec_round_trip :
    toRec (1, 90) = Complex.I ∧
    (∀ z : ℂ, ∀ p : ℝ × ℝ, toPolar (.cplx z) = .ok p → toRec p = z) := by
  refine ⟨toRec_one_ninety, ?_⟩
  intro z p hp
  have hp' : (Complex.abs z, degrees (Complex.arg z)) = p := by
    have h2 : (Except.ok (Complex.abs z, degrees (Complex.arg z)) : Except PyErr (ℝ × ℝ))
        = Except.ok p := hp
    injection h2
  rw [← hp']
  exact toRec_polar z

/-- Witness for C9: the round trip at the imaginary unit. -/
theorem c9_witness :
    toPolar (.cplx Complex.I) = .ok (1, 90) ∧ toRec (1, 90) = Complex.I :=
  ⟨toPolar_I, c9_toRec_round_trip.2 Complex.I (1, 90) toPolar_I⟩

/-! ## Claim C7 -/

/-- Python `int(float(n))` is the identity on int answers. -/
theorem pyIntOfAns_int (n : ℤ) : pyIntOfAns (.int n) = .ok n := by
  show Except.ok (pyTrunc (n : ℝ)) = Except.ok n
  have h : pyTrunc (n : ℝ) = n := by
    unfold pyTrunc
    split <;> simp
  rw [h]

/-- C7: the HEX/BIN/DEC/OCT buttons require the last answer to be
coercible to an integer (reals are truncated toward zero, complex
values and the initial empty-string answer are rejected); on success
the canonical prefixed text replaces the buffer and overwrites the
last answer, on failure an error is reported and both the buffer and
the last answer are left unchanged. -/
theorem c7_convert_bases :
    (∀ s : CalcState, ∀ b : String, b = "HEX" ∨ b = "BIN" ∨ b = "DEC" ∨ b = "OCT" →
      buttonClicked b s = convertBranch b s) ∧
    (∀ s : CalcState, ∀ b : String, ∀ e : PyErr, pyIntOfAns s.last_ans = .error e →
      convertBranch b s = (s, .errMsg "No valid integer stored in ANS for conversion.".data)) ∧
    (∀ s : CalcState, ∀ z : ℤ, pyIntOfAns s.last_ans = .ok z →
      convertBranch "HEX" s =
        ({ s with expression := hexText z, last_ans := .str (hexText z) }, .display (hexText z)) ∧
      convertBranch "BIN" s =
        ({ s with expression := binText z, last_ans := .str (binText z) }, .display (binText z)) ∧
      convertBranch "DEC" s =
        ({ s with expression := intText z, last_ans := .str (intText z) }, .display (intText z)) ∧
      convertBranch "OCT" s =
        ({ s with expression := octText z, last_ans := .str (octText z) }, .display (octText z))) ∧
    (∀ z : ℂ, pyFloat (.cplx z) = .error .typeErr) ∧
    (pyFloat (.str []) = .error .valueErr) ∧
    (∀ x : ℝ, pyIntOfAns (.real x) = .ok (pyTrunc x)) ∧
    (hexText 26 = "0x1a".data) := by
  refine ⟨?_, ?_, ?_, fun _ => rfl, rfl, fun _ => rfl, rfl⟩
  · rintro s b (rfl | rfl | rfl | rfl) <;> rfl
  · intro s b e h
    unfold convertBranch
    rw [h]
  · intro s z h
    refine ⟨?_, ?_, ?_, ?_⟩ <;> · unfold convertBranch; rw [h]; rfl

/-- Witness for C7: converting the integer answer `26` to hex yields
the buffer and answer `"0x1a"`; converting the initial empty-string
answer fails and changes nothing. -/
theorem c7_witness :
    convertBranch "HEX" ⟨"26".data, .int 26, allowedEnv 0⟩
      = (⟨"0x1a".data, .str "0x1a".data, allowedEnv 0⟩, .display "0x1a".data) ∧
    convertBranch "HEX" ⟨[], .str [], allowedEnv 0⟩
      = (⟨[], .str [], allowedEnv 0⟩,
          .errMsg "No valid integer stored in ANS for conversion.".data) :=
  ⟨(c7_convert_bases.2.2.1 ⟨"26".data, .int 26, allowedEnv 0⟩ 26 (pyIntOfAns_int 26)).1,
    c7_convert_bases.2.1 ⟨[], .str [], allowedEnv 0⟩ "HEX" .valueErr rfl⟩

/-- Every name resolved by a successfully evaluated expression is
bound in the namespace: evaluation never resolves an identifier
outside the mapping. -/
theorem evalAST_ok_names {env : Env} :
    ∀ e : Expr, ∀ v : Value, evalAST env e = .ok v →
      ∀ n : String, n ∈ namesOf e → env n ≠ none := by
  intro e
  induction e with
  | intLit k => intro v _ n hn; simp [namesOf] at hn
  | fltLit q => intro v _ n hn; simp [namesOf] at hn
  | imgLit q => intro v _ n hn; simp [namesOf] at hn
  | nam s =>
    intro v h n hn
    simp [namesOf] at hn
    subst hn
    intro hnone
    unfold evalAST lookupName at h
    rw [hnone] at h
    exact Except.noConfusion h
  | call0 f =>
    intro v h n hn
    simp [namesOf] at hn
    subst hn
    intro hnone
    unfold evalAST at h
    rw [hnone] at h
    exact Except.noConfusion h
  | call1 f a ih =>
    intro v h n hn
    unfold evalAST at h
    cases henv : env f with
    | none => rw [henv] at h; exact Except.noConfusion h
    | some entry =>
      rw [henv] at h
      cases ha : evalAST env a with
      | error er => rw [ha] at h; exact Except.noConfusion h
      | ok av =>
        simp [namesOf] at hn
        rcases hn with rfl | hn
        · rw [henv]; simp
        · exact ih av ha n hn
  | call2 f a b iha ihb =>
    intro v h n hn
    unfold evalAST at h
    cases henv : env f with
    | none => rw [henv] at h; exact Except.noConfusion h
    | some entry =>
      rw [henv] at h
      cases ha : evalAST env a with
      | error er => rw [ha] at h; exact Except.noConfusion h
      | ok av =>
        rw [ha] at h
        cases hb : evalAST env b with
        | error er => rw [hb] at h; exact Except.noConfusion h
        | ok bv =>
          simp [namesOf] at hn
          rcases hn with rfl | hn | hn
          · rw [henv]; simp
          · exact iha av ha n hn
          · exact ihb bv hb n hn
  | tupE a b iha ihb =>
    intro v h n hn
    unfold evalAST at h
    cases ha : evalAST env a with
    | error er => rw [ha] at h; exact Except.noConfusion h
    | ok av =>
      rw [ha] at h
      cases hb : evalAST env b with
      | error er => rw [hb] at h; exact Except.noConfusion h
      | ok bv =>
        simp [namesOf] at hn
        rcases hn with hn | hn
        · exact iha av ha n hn
        · exact ihb bv hb n hn
  | unE op a ih =>
    intro v h n hn
    unfold evalAST at h
    cases ha : evalAST env a with
    | error er => rw [ha] at h; exact Except.noConfusion h
    | ok av =>
      simp [namesOf] at hn
      exact ih av ha n hn
  | binE op a b iha ihb =>
    intro v h n hn
    unfold evalAST at h
    cases ha : evalAST env a with
    | error er => rw [ha] at h; exact Except.noConfusion h
    | ok av =>
      rw [ha] at h
      cases hb : evalAST env b with
      | error er => rw [hb] at h; exact Except.noConfusion h
      | ok bv =>
        simp [namesOf] at hn
        rcases hn with hn | hn
        · exact iha av ha n hn
        · exact ihb bv hb n hn


/-- Unpack equality of two ok-wrapped parser results. -/
theorem ok_pair_inj {a e : Expr} {ts rest : List Token}
    (h : (Except.ok (a, ts) : Except PyErr (Expr × List Token)) = .ok (e, rest)) :
    a = e ∧ ts = rest := by
  injection h with h'
  exact ⟨congrArg Prod.fst h', congrArg Prod.snd h'⟩

/-- The folding levels return their accumulator unchanged on
non-operator input. -/
theorem aux_base {acc e : Expr} {ts rest : List Token}
    (h : (Except.ok (acc, ts) : Except PyErr (Expr × List Token)) = .ok (e, rest)) :
    consumes ts rest e ∧ ∀ n ∈ namesOf acc, n ∈ namesOf e := by
  obtain ⟨rfl, rfl⟩ := ok_pair_inj h
  exact ⟨fun n hn => Or.inl hn, fun n hn => hn⟩

/-- An already-established invariant transports along a returned-ok
equation. -/
theorem consumes_of_eq {a e : Expr} {ts r rest : List Token}
    (h : (Except.ok (a, r) : Except PyErr (Expr × List Token)) = .ok (e, rest))
    (ha : consumes ts r a) : consumes ts rest e := by
  obtain ⟨rfl, rfl⟩ := ok_pair_inj h
  exact ha

/-- The bare-name fallback of the after-identifier step. -/
theorem ai_base {s : String} {e : Expr} {ts rest : List Token}
    (h : (Except.ok (.nam s, ts) : Except PyErr (Expr × List Token)) = .ok (e, rest)) :
    consumes ts rest e ∧ s ∈ namesOf e := by
  obtain ⟨rfl, rfl⟩ := ok_pair_inj h
  exact ⟨fun n hn => Or.inl hn, by simp [namesOf]⟩

/-- Every parser level satisfies the identifier invariant: identifiers
of the input token list end up either in the unconsumed remainder or
among the names of the parsed expression. -/
theorem parse_idents : ∀ fuel : ℕ,
    (∀ ts e rest, parseE fuel ts = .ok (e, rest) → consumes ts rest e) ∧
    (∀ acc ts e rest, parseEAux fuel acc ts = .ok (e, rest) →
      consumes ts rest e ∧ ∀ n ∈ namesOf acc, n ∈ namesOf e) ∧
    (∀ op acc r e rest, parseEOp fuel op acc r = .ok (e, rest) →
      consumes r rest e ∧ ∀ n ∈ namesOf acc, n ∈ namesOf e) ∧
    (∀ ts e rest, parseT fuel ts = .ok (e, rest) → consumes ts rest e) ∧
    (∀ acc ts e rest, parseTAux fuel acc ts = .ok (e, rest) →
      consumes ts rest e ∧ ∀ n ∈ namesOf acc, n ∈ namesOf e) ∧
    (∀ op acc r e rest, parseTOp fuel op acc r = .ok (e, rest) →
      consumes r rest e ∧ ∀ n ∈ namesOf acc, n ∈ namesOf e) ∧
    (∀ ts e rest, parseF fuel ts = .ok (e, rest) → consumes ts rest e) ∧
    (∀ op r e rest, parseFSign fuel op r = .ok (e, rest) → consumes r rest e) ∧
    (∀ ts e rest, parseP fuel ts = .ok (e, rest) → consumes ts rest e) ∧
    (∀ a r e rest, parsePowTail fuel a r = .ok (e, rest) →
      consumes r rest e ∧ ∀ n ∈ namesOf a, n ∈ namesOf e) ∧
    (∀ a r e rest, parsePowExp fuel a r = .ok (e, rest) →
      consumes r rest e ∧ ∀ n ∈ namesOf a, n ∈ namesOf e) ∧
    (∀ ts e rest, parseAtom fuel ts = .ok (e, rest) → consumes ts rest e) ∧
    (∀ s r e rest, parseAfterIdent fuel s r = .ok (e, rest) →
      consumes r rest e ∧ s ∈ namesOf e) ∧
    (∀ s r e rest, parseCallArgs fuel s r = .ok (e, rest) →
      consumes r rest e ∧ s ∈ namesOf e) ∧
    (∀ s r e rest, parseCall1 fuel s r = .ok (e, rest) →
      consumes r rest e ∧ s ∈ namesOf e) ∧
    (∀ s a r e rest, parseCall2 fuel s a r = .ok (e, rest) →
      consumes r rest e ∧ s ∈ namesOf e ∧ ∀ n ∈ namesOf a, n ∈ namesOf e) ∧
    (∀ r e rest, parseParenRest fuel r = .ok (e, rest) → consumes r rest e) ∧
    (∀ a r e rest, parseParenPair fuel a r = .ok (e, rest) →
      consumes r rest e ∧ ∀ n ∈ namesOf a, n ∈ namesOf e) := by
  intro fuel
  induction fuel with
  | zero =>
    refine ⟨?_, ?_, ?_, ?_, ?_, ?_, ?_, ?_, ?_, ?_, ?_, ?_, ?_, ?_, ?_, ?_, ?_, ?_⟩
    · intro ts e rest h; exact Except.noConfusion h
    · intro acc ts e rest h; exact Except.noConfusion h
    · intro op acc r e rest h; exact Except.noConfusion h
    · intro ts e rest h; exact Except.noConfusion h
    · intro acc ts e rest h; exact Except.noConfusion h
    · intro op acc r e rest h; exact Except.noConfusion h
    · intro ts e rest h; exact Except.noConfusion h
    · intro op r e rest h; exact Except.noConfusion h
    · intro ts e rest h; exact Except.noConfusion h
    · intro a r e rest h; exact Except.noConfusion h
    · intro a r e rest h; exact Except.noConfusion h
    · intro ts e rest h; exact Except.noConfusion h
    · intro s r e rest h; exact Except.noConfusion h
    · intro s r e rest h; exact Except.noConfusion h
    · intro s r e rest h; exact Except.noConfusion h
    · intro s a r e rest h; exact Except.noConfusion h
    · intro r e rest h; exact Except.noConfusion h
    · intro a r e rest h; exact Except.noConfusion h
  | succ m IH =>
    obtain ⟨ihE, ihEA, ihEO, ihT, ihTA, ihTO, ihF, ihFS, ihP, ihPT, ihPX,
      ihA, ihAI, ihCA, ihC1, ihC2, ihPR, ihPP⟩ := IH
    refine ⟨?_, ?_, ?_, ?_, ?_, ?_, ?_, ?_, ?_, ?_, ?_, ?_, ?_, ?_, ?_, ?_, ?_, ?_⟩
    -- parseE
    · intro ts e rest h
      unfold parseE at h
      cases hT : parseT m ts with
      | error er => rw [hT] at h; exact Except.noConfusion h
      | ok p =>
        obtain ⟨a, r1⟩ := p
        rw [hT] at h
        have hte := ihT ts a r1 hT
        have hea := ihEA a r1 e rest h
        intro n hn
        rcases hte n hn with h1 | h1
        · exact hea.1 n h1
        · exact Or.inr (hea.2 n h1)
    -- parseEAux
    · intro acc ts e rest h
      unfold parseEAux at h
      rcases ts with _ | ⟨t, r⟩
      · exact aux_base h
      · cases t <;> try exact aux_base h
        case plus =>
          have ho := ihEO .addB acc r e rest h
          exact ⟨fun n hn => ho.1 n (by simpa [idents] using hn), ho.2⟩
        case minus =>
          have ho := ihEO .subB acc r e rest h
          exact ⟨fun n hn => ho.1 n (by simpa [idents] using hn), ho.2⟩
    -- parseEOp
    · intro op acc r e rest h
      unfold parseEOp at h
      cases hT : parseT m r with
      | error er => rw [hT] at h; exact Except.noConfusion h
      | ok p =>
        obtain ⟨b, r2⟩ := p
        rw [hT] at h
        have hte := ihT r b r2 hT
        have hrec := ihEA (.binE op acc b) r2 e rest h
        refine ⟨?_, ?_⟩
        · intro n hn
          rcases hte n hn with h1 | h1
          · exact hrec.1 n h1
          · exact Or.inr (hrec.2 n (by simp [namesOf]; exact Or.inr h1))
        · intro n hn
          exact hrec.2 n (by simp [namesOf]; exact Or.inl hn)
    -- parseT
    · intro ts e rest h
      unfold parseT at h
      cases hF : parseF m ts with
      | error er => rw [hF] at h; exact Except.noConfusion h
      | ok p =>
        obtain ⟨a, r1⟩ := p
        rw [hF] at h
        have htf := ihF ts a r1 hF
        have hta := ihTA a r1 e rest h
        intro n hn
        rcases htf n hn with h1 | h1
        · exact hta.1 n h1
        · exact Or.inr (hta.2 n h1)
    -- parseTAux
    · intro acc ts e rest h
      unfold parseTAux at h
      rcases ts with _ | ⟨t, r⟩
      · exact aux_base h
      · cases t <;> try exact aux_base h
        case star =>
          have ho := ihTO .mulB acc r e rest h
          exact ⟨fun n hn => ho.1 n (by simpa [idents] using hn), ho.2⟩
        case slash =>
          have ho := ihTO .divB acc r e rest h
          exact ⟨fun n hn => ho.1 n (by simpa [idents] using hn), ho.2⟩
    -- parseTOp
    · intro op acc r e rest h
      unfold parseTOp at h
      cases hF : parseF m r with
      | error er => rw [hF] at h; exact Except.noConfusion h
      | ok p =>
        obtain ⟨b, r2⟩ := p
        rw [hF] at h
        have htf := ihF r b r2 hF
        have hrec := ihTA (.binE op acc b) r2 e rest h
        refine ⟨?_, ?_⟩
        · intro n hn
          rcases htf n hn with h1 | h1
          · exact hrec.1 n h1
          · exact Or.inr (hrec.2 n (by simp [namesOf]; exact Or.inr h1))
        · intro n hn
          exact hrec.2 n (by simp [namesOf]; exact Or.inl hn)
    -- parseF
    · intro ts e rest h
      unfold parseF at h
      rcases ts with _ | ⟨t, r⟩
      · exact ihP [] e rest h
      · cases t <;> try exact ihP _ e rest h
        case minus =>
          have hs := ihFS .negU r e rest h
          intro n hn
          exact hs n (by simpa [idents] using hn)
        case plus =>
          have hs := ihFS .posU r e rest h
          intro n hn
          exact hs n (by simpa [idents] using hn)
    -- parseFSign
    · intro op r e rest h
      unfold parseFSign at h
      cases hF : parseF m r with
      | error er => rw [hF] at h; exact Except.noConfusion h
      | ok p =>
        obtain ⟨a, r2⟩ := p
        rw [hF] at h
        obtain ⟨rfl, rfl⟩ := ok_pair_inj h
        intro n hn
        rcases ihF r a r2 hF n hn with h1 | h1
        · exact Or.inl h1
        · exact Or.inr (by simpa [namesOf] using h1)
    -- parseP
    · intro ts e rest h
      unfold parseP at h
      cases hA : parseAtom m ts with
      | error er => rw [hA] at h; exact Except.noConfusion h
      | ok p =>
        obtain ⟨a, r1⟩ := p
        rw [hA] at h
        have ha := ihA ts a r1 hA
        have hpt := ihPT a r1 e rest h
        intro n hn
        rcases ha n hn with h1 | h1
        · exact hpt.1 n h1
        · exact Or.inr (hpt.2 n h1)
    -- parsePowTail
    · intro a r e rest h
      unfold parsePowTail at h
      rcases r with _ | ⟨t, r2⟩
      · exact aux_base h
      · cases t <;> try exact aux_base h
        case dstar =>
          have hx := ihPX a r2 e rest h
          exact ⟨fun n hn => hx.1 n (by simpa [idents] using hn), hx.2⟩
    -- parsePowExp
    · intro a r e rest h
      unfold parsePowExp at h
      cases hF : parseF m r with
      | error er => rw [hF] at h; exact Except.noConfusion h
      | ok p =>
        obtain ⟨b, r3⟩ := p
        rw [hF] at h
        obtain ⟨rfl, rfl⟩ := ok_pair_inj h
        refine ⟨?_, ?_⟩
        · intro n hn
          rcases ihF r b r3 hF n hn with h1 | h1
          · exact Or.inl h1
          · exact Or.inr (by simp [namesOf]; exact Or.inr h1)
        · intro n hn
          simp [namesOf]
          exact Or.inl hn
    -- parseAtom
    · intro ts e rest h
      unfold parseAtom at h
      rcases ts with _ | ⟨t, r⟩
      · exact Except.noConfusion h
      · cases t <;> try exact Except.noConfusion h
        case intTok k =>
          obtain ⟨rfl, rfl⟩ := ok_pair_inj h
          intro n hn
          exact Or.inl (by simpa [idents] using hn)
        case floatTok q =>
          obtain ⟨rfl, rfl⟩ := ok_pair_inj h
          intro n hn
          exact Or.inl (by simpa [idents] using hn)
        case imagTok q =>
          obtain ⟨rfl, rfl⟩ := ok_pair_inj h
          intro n hn
          exact Or.inl (by simpa [idents] using hn)
        case identTok s =>
          have hai := ihAI s r e rest h
          intro n hn
          have hn' : n = s ∨ n ∈ idents r := by simpa [idents] using hn
          rcases hn' with rfl | hn'
          · exact Or.inr hai.2
          · exact hai.1 n hn'
        case lparen =>
          have hpr := ihPR r e rest h
          intro n hn
          exact hpr n (by simpa [idents] using hn)
    -- parseAfterIdent
    · intro s r e rest h
      unfold parseAfterIdent at h
      rcases r with _ | ⟨t, r2⟩
      · exact ai_base h
      · cases t <;> try exact ai_base h
        case lparen =>
          have hca := ihCA s r2 e rest h
          exact ⟨fun n hn => hca.1 n (by simpa [idents] using hn), hca.2⟩
    -- parseCallArgs
    · intro s r e rest h
      unfold parseCallArgs at h
      rcases r with _ | ⟨t, r2⟩
      · exact ihC1 s [] e rest h
      · cases t <;> try exact ihC1 s _ e rest h
        case rparen =>
          obtain ⟨rfl, rfl⟩ := ok_pair_inj h
          exact ⟨fun n hn => Or.inl (by simpa [idents] using hn), by simp [namesOf]⟩
    -- parseCall1
    · intro s r e rest h
      unfold parseCall1 at h
      cases hE : parseE m r with
      | error er => rw [hE] at h; exact Except.noConfusion h
      | ok p =>
        obtain ⟨a, r2⟩ := p
        rw [hE] at h
        have hre := ihE r a r2 hE
        rcases r2 with _ | ⟨t, r3⟩
        · exact Except.noConfusion h
        · cases t <;> try exact Except.noConfusion h
          case rparen =>
            obtain ⟨rfl, rfl⟩ := ok_pair_inj h
            refine ⟨?_, by simp [namesOf]⟩
            intro n hn
            rcases hre n hn with h1 | h1
            · exact Or.inl (by simpa [idents] using h1)
            · exact Or.inr (by simp [namesOf]; exact Or.inr h1)
          case comma =>
            have hc2 := ihC2 s a r3 e rest h
            refine ⟨?_, hc2.2.1⟩
            intro n hn
            rcases hre n hn with h1 | h1
            · exact hc2.1 n (by simpa [idents] using h1)
            · exact Or.inr (hc2.2.2 n h1)
    -- parseCall2
    · intro s a r e rest h
      unfold parseCall2 at h
      cases hE : parseE m r with
      | error er => rw [hE] at h; exact Except.noConfusion h
      | ok p =>
        obtain ⟨b, r4⟩ := p
        rw [hE] at h
        have hre := ihE r b r4 hE
        rcases r4 with _ | ⟨t, r5⟩
        · exact Except.noConfusion h
        · cases t <;> try exact Except.noConfusion h
          case rparen =>
            obtain ⟨rfl, rfl⟩ := ok_pair_inj h
            refine ⟨?_, by simp [namesOf], ?_⟩
            · intro n hn
              rcases hre n hn with h1 | h1
              · exact Or.inl (by simpa [idents] using h1)
              · exact Or.inr (by simp [namesOf]; exact Or.inr (Or.inr h1))
            · intro n hn
              simp [namesOf]
              exact Or.inr (Or.inl hn)
    -- parseParenRest
    · intro r e rest h
      unfold parseParenRest at h
      cases hE : parseE m r with
      | error er => rw [hE] at h; exact Except.noConfusion h
      | ok p =>
        obtain ⟨a, r2⟩ := p
        rw [hE] at h
        have hre := ihE r a r2 hE
        rcases r2 with _ | ⟨t, r3⟩
        · exact Except.noConfusion h
        · cases t <;> try exact Except.noConfusion h
          case rparen =>
            obtain ⟨rfl, rfl⟩ := ok_pair_inj h
            intro n hn
            rcases hre n hn with h1 | h1
            · exact Or.inl (by simpa [idents] using h1)
            · exact Or.inr h1
          case comma =>
            have hpp := ihPP a r3 e rest h
            intro n hn
            rcases hre n hn with h1 | h1
            · exact hpp.1 n (by simpa [idents] using h1)
            · exact Or.inr (hpp.2 n h1)
    -- parseParenPair
    · intro a r e rest h
      unfold parseParenPair at h
      cases hE : parseE m r with
      | error er => rw [hE] at h; exact Except.noConfusion h
      | ok p =>
        obtain ⟨b, r4⟩ := p
        rw [hE] at h
        have hre := ihE r b r4 hE
        rcases r4 with _ | ⟨t, r5⟩
        · exact Except.noConfusion h
        · cases t <;> try exact Except.noConfusion h
          case rparen =>
            obtain ⟨rfl, rfl⟩ := ok_pair_inj h
            refine ⟨?_, ?_⟩
            · intro n hn
              rcases hre n hn with h1 | h1
              · exact Or.inl (by simpa [idents] using h1)
              · exact Or.inr (by simp [namesOf]; exact Or.inr h1)
            · intro n hn
              simp [namesOf]
              exact Or.inl hn

/-- Every name bound by `ALLOWED_NAMES` is one of its keys. -/
theorem allowedEnv_domain (rand : ℝ) :
    ∀ n v, allowedEnv rand n = some v → n ∈ ALLOWED_NAMES_KEYS := by
  intro n v h
  unfold allowedEnv envOf at h
  cases hf : (ALLOWED_NAMES rand).find? (fun p => p.1 == n) with
  | none => rw [hf] at h; exact Option.noConfusion h
  | some p =>
    have hmem := List.mem_of_find?_eq_some hf
    have hpn := List.find?_some hf
    have hpn' : p.1 = n := by simpa using hpn
    have hkeys : (ALLOWED_NAMES rand).map Prod.fst = ALLOWED_NAMES_KEYS := rfl
    have hin : p.1 ∈ (ALLOWED_NAMES rand).map Prod.fst :=
      List.mem_map_of_mem Prod.fst hmem
    rw [hkeys] at hin
    rwa [hpn'] at hin

/-! ## Claim C2 -/

/-- C2: under any namespace bound only to the `ALLOWED_NAMES` keys,
every expression text containing an identifier outside those keys
fails with an `EvaluationError`; name resolution happens nowhere but
in the namespace passed to the evaluator, so the identifier never
reaches any capability outside the allowed-name mapping. -/
theorem c2_unknown_identifier_fails :
    ∀ env : Env, (∀ n v, env n = some v → n ∈ ALLOWED_NAMES_KEYS) →
    ∀ text : List Char, ∀ ts : List Token, ∀ bad : String,
      tokenize text = .ok ts → bad ∈ idents ts → bad ∉ ALLOWED_NAMES_KEYS →
      ∃ e : PyErr, pyEval env text = .error e := by
  intro env hdom text ts bad htok hbad hnk
  have hnone : env bad = none := by
    cases hv : env bad with
    | none => rfl
    | some v => exact absurd (hdom bad v hv) hnk
  unfold pyEval
  rw [htok]
  show ∃ er : PyErr,
      (match parseTokens ts with
        | .error e => (Except.error e : Except PyErr Value)
        | .ok e => evalAST env e) = .error er
  cases hp : parseTokens ts with
  | error er => exact ⟨er, rfl⟩
  | ok e =>
    show ∃ er : PyErr, evalAST env e = .error er
    unfold parseTokens at hp
    cases hpe : parseE (20 * ts.length + 20) ts with
    | error er => rw [hpe] at hp; exact Except.noConfusion hp
    | ok p =>
      obtain ⟨e', rest⟩ := p
      rw [hpe] at hp
      rcases rest with _ | ⟨t, r⟩
      · have he : e' = e := by injection hp
        subst he
        have hinv := (parse_idents (20 * ts.length + 20)).1 ts e' [] hpe
        have hne : bad ∈ namesOf e' := by
          rcases hinv bad hbad with h1 | h1
          · simp [idents] at h1
          · exact h1
        cases hev : evalAST env e' with
        | error er => exact ⟨er, rfl⟩
        | ok v => exact absurd hnone (evalAST_ok_names e' v hev bad hne)
      · exact Except.noConfusion hp

/-- Witness for C2: the identifier `boom` is outside the allowed keys,
so evaluating `"boom(3)"` under the calculator's namespace fails. -/
theorem c2_witness :
    tokenize "boom(3)".data = .ok [.identTok "boom", .lparen, .intTok 3, .rparen] ∧
    "boom" ∈ idents [.identTok "boom", .lparen, .intTok 3, .rparen] ∧
    "boom" ∉ ALLOWED_NAMES_KEYS ∧
    ∃ e : PyErr, pyEval (allowedEnv 0) "boom(3)".data = .error e := by
  refine ⟨rfl, by simp [idents], by decide, ?_⟩
  exact c2_unknown_identifier_fails (allowedEnv 0) (allowedEnv_domain 0)
    "boom(3)".data [.identTok "boom", .lparen, .intTok 3, .rparen] "boom"
    rfl (by simp [idents]) (by decide)

end Calc
